import Mathlib

/-!
Verification of the market-data client core of the crypto_live_dashboard
repository: the retry/backoff request loop, the TTL response cache
decorator, the public endpoint wrappers, and the pure portfolio
processing functions.  Definitions are shallow embeddings of the Python
source in `src/api/binance_client.py` and `src/data/processor.py`.
-/

namespace CryptoDash

/-- One attempt of `session.get` inside `BinanceClient._make_request`
(`src/api/binance_client.py`): either an HTTP response arrives with a
status code, a body text, and (for the 200 branch) the outcome of
`response.json()` (`Except` error text mirrors the caught `ValueError`
message), or `requests.exceptions.Timeout` /
`requests.exceptions.RequestException` is raised. -/
inductive Attempt (α : Type) where
  | response (code : Nat) (text : String) (parsed : Except String α)
  | timeout
  | reqError (msg : String)

/-- Observable result of `_make_request`: the returned value or the
message of the raised `BinanceAPIError`, the number of HTTP GET requests
issued, and the list of `time.sleep` durations in order. -/
structure ReqResult (α : Type) where
  outcome : Except String α
  numRequests : Nat
  sleeps : List Nat

/-- The body of the `for attempt in range(self.max_retries + 1)` loop of
`BinanceClient._make_request`, with `resp i` the outcome of the HTTP GET
of attempt `i`.  `fuel` is the number of loop iterations remaining
(`max_retries + 1 - attempt`); when it runs out the trailing
`raise BinanceAPIError("Unexpected error in request handling")` fires. -/
def makeRequestGo (maxRetries : Nat) (resp : Nat → Attempt α) :
    Nat → Nat → ReqResult α
  | 0, _ => ⟨.error "Unexpected error in request handling", 0, []⟩
  | fuel + 1, attempt =>
    match resp attempt with
    | .response code text parsed =>
      if code = 429 then
        if attempt < maxRetries then
          let rest := makeRequestGo maxRetries resp fuel (attempt + 1)
          ⟨rest.outcome, rest.numRequests + 1, 2 ^ attempt :: rest.sleeps⟩
        else
          ⟨.error "Rate limit exceeded after all retries", 1, []⟩
      else if code ≠ 200 then
        if attempt < maxRetries then
          let rest := makeRequestGo maxRetries resp fuel (attempt + 1)
          ⟨rest.outcome, rest.numRequests + 1, 2 ^ attempt :: rest.sleeps⟩
        else
          ⟨.error ("Request failed after all retries: " ++
            ("HTTP " ++ toString code ++ ": " ++ text)), 1, []⟩
      else
        match parsed with
        | .ok v => ⟨.ok v, 1, []⟩
        | .error e => ⟨.error ("Invalid JSON response: " ++ e), 1, []⟩
    | .timeout =>
      if attempt < maxRetries then
        let rest := makeRequestGo maxRetries resp fuel (attempt + 1)
        ⟨rest.outcome, rest.numRequests + 1, 2 ^ attempt :: rest.sleeps⟩
      else
        ⟨.error "Request timeout after all retries", 1, []⟩
    | .reqError e =>
      if attempt < maxRetries then
        let rest := makeRequestGo maxRetries resp fuel (attempt + 1)
        ⟨rest.outcome, rest.numRequests + 1, 2 ^ attempt :: rest.sleeps⟩
      else
        ⟨.error ("Request failed after all retries: " ++ e), 1, []⟩

/-- The call `BinanceClient._make_request` for a client constructed with
`max_retries = maxRetries`, run against the attempt outcomes `resp`. -/
def makeRequest (maxRetries : Nat) (resp : Nat → Attempt α) : ReqResult α :=
  makeRequestGo maxRetries resp (maxRetries + 1) 0

/-- An attempt outcome that `_make_request` treats as retryable:
HTTP 429, any other non-200 status, a timeout, or a transport-level
request error. -/
def Retryable : Attempt α → Prop
  | .response code _ _ => code ≠ 200
  | .timeout => True
  | .reqError _ => True

instance : DecidablePred (Retryable (α := α)) := fun a =>
  match a with
  | .response code _ _ => inferInstanceAs (Decidable (code ≠ 200))
  | .timeout => inferInstanceAs (Decidable True)
  | .reqError _ => inferInstanceAs (Decidable True)

/-- A `_make_request` error message signalling retry exhaustion:
one of the three `after all retries` messages of the source. -/
def ExhaustionMsg (m : String) : Prop :=
  m = "Rate limit exceeded after all retries" ∨
  m = "Request timeout after all retries" ∨
  ∃ t, m = "Request failed after all retries: " ++ t

/-- The tail of `_make_request`'s loop starting at iteration `attempt`
(so the whole call is `makeRequestFrom maxRetries resp 0`). -/
def makeRequestFrom (maxRetries : Nat) (resp : Nat → Attempt α)
    (attempt : Nat) : ReqResult α :=
  makeRequestGo maxRetries resp (maxRetries + 1 - attempt) attempt

lemma makeRequest_eq_from (maxRetries : Nat) (resp : Nat → Attempt α) :
    makeRequest maxRetries resp = makeRequestFrom maxRetries resp 0 := rfl

lemma makeRequestGo_retry_step (maxRetries : Nat) (resp : Nat → Attempt α)
    (fuel attempt : Nat) (hr : Retryable (resp attempt))
    (hlt : attempt < maxRetries) :
    makeRequestGo maxRetries resp (fuel + 1) attempt =
      ⟨(makeRequestGo maxRetries resp fuel (attempt + 1)).outcome,
       (makeRequestGo maxRetries resp fuel (attempt + 1)).numRequests + 1,
       2 ^ attempt ::
         (makeRequestGo maxRetries resp fuel (attempt + 1)).sleeps⟩ := by
  cases h : resp attempt with
  | response code text parsed =>
    rw [h] at hr
    simp only [Retryable] at hr
    by_cases h429 : code = 429 <;>
      simp [makeRequestGo, h, h429, hr, hlt]
  | timeout => simp [makeRequestGo, h, hlt]
  | reqError e => simp [makeRequestGo, h, hlt]

lemma makeRequestFrom_retry_step (maxRetries : Nat) (resp : Nat → Attempt α)
    (attempt : Nat) (hr : Retryable (resp attempt))
    (hlt : attempt < maxRetries) :
    makeRequestFrom maxRetries resp attempt =
      ⟨(makeRequestFrom maxRetries resp (attempt + 1)).outcome,
       (makeRequestFrom maxRetries resp (attempt + 1)).numRequests + 1,
       2 ^ attempt ::
         (makeRequestFrom maxRetries resp (attempt + 1)).sleeps⟩ := by
  unfold makeRequestFrom
  have h1 : maxRetries + 1 - attempt = (maxRetries + 1 - (attempt + 1)) + 1 := by
    omega
  rw [h1, makeRequestGo_retry_step maxRetries resp _ attempt hr hlt]

/-- Skipping a block of `k` retryable attempts starting at `attempt = a`:
the result is that of the loop resumed at attempt `a + k`, with `k` more
requests issued and the backoff sleeps `2^a, ..., 2^(a+k-1)` prepended. -/
lemma makeRequestFrom_skip (maxRetries : Nat) (resp : Nat → Attempt α)
    (k : Nat) :
    ∀ a : Nat, (∀ i, a ≤ i → i < a + k → Retryable (resp i)) →
    a + k ≤ maxRetries →
    makeRequestFrom maxRetries resp a =
      ⟨(makeRequestFrom maxRetries resp (a + k)).outcome,
       (makeRequestFrom maxRetries resp (a + k)).numRequests + k,
       (List.range' a k).map (2 ^ ·) ++
         (makeRequestFrom maxRetries resp (a + k)).sleeps⟩ := by
  induction k with
  | zero => intro a _ _; simp
  | succ k ih =>
    intro a hretry hle
    have ha : a < maxRetries := by omega
    rw [makeRequestFrom_retry_step maxRetries resp a
      (hretry a le_rfl (by omega)) ha]
    rw [ih (a + 1) (fun i h1 h2 => hretry i (by omega) (by omega)) (by omega)]
    have harith : a + 1 + k = a + (k + 1) := by omega
    rw [harith, List.range'_succ, List.map_cons, List.cons_append,
      Nat.add_assoc]

lemma makeRequestFrom_ok (maxRetries : Nat) (resp : Nat → Attempt α)
    (a : Nat) (t : String) (v : α) (ha : a ≤ maxRetries)
    (h : resp a = .response 200 t (.ok v)) :
    makeRequestFrom maxRetries resp a = ⟨.ok v, 1, []⟩ := by
  unfold makeRequestFrom
  have h1 : maxRetries + 1 - a = (maxRetries - a) + 1 := by omega
  rw [h1]
  simp [makeRequestGo, h]

lemma makeRequestFrom_parseError (maxRetries : Nat) (resp : Nat → Attempt α)
    (a : Nat) (t e : String) (ha : a ≤ maxRetries)
    (h : resp a = .response 200 t (.error e)) :
    makeRequestFrom maxRetries resp a =
      ⟨.error ("Invalid JSON response: " ++ e), 1, []⟩ := by
  unfold makeRequestFrom
  have h1 : maxRetries + 1 - a = (maxRetries - a) + 1 := by omega
  rw [h1]
  simp [makeRequestGo, h]

lemma makeRequestFrom_lastFail (maxRetries : Nat) (resp : Nat → Attempt α)
    (hr : Retryable (resp maxRetries)) :
    ∃ m, makeRequestFrom maxRetries resp maxRetries = ⟨.error m, 1, []⟩ ∧
      ExhaustionMsg m := by
  unfold makeRequestFrom
  have h1 : maxRetries + 1 - maxRetries = 1 := by omega
  rw [h1]
  cases h : resp maxRetries with
  | response code text parsed =>
    rw [h] at hr
    simp only [Retryable] at hr
    by_cases h429 : code = 429
    · exact ⟨_, by simp [makeRequestGo, h, h429], Or.inl rfl⟩
    · exact ⟨_, by simp [makeRequestGo, h, h429, hr],
        Or.inr (Or.inr ⟨"HTTP " ++ toString code ++ ": " ++ text, rfl⟩)⟩
  | timeout =>
    exact ⟨_, by simp [makeRequestGo, h], Or.inr (Or.inl rfl)⟩
  | reqError e =>
    exact ⟨_, by simp [makeRequestGo, h], Or.inr (Or.inr ⟨e, rfl⟩)⟩

/-- C1: for every `N` with `0 < N ≤ max_retries`, if `_make_request`
receives `N` consecutive HTTP 429 responses followed by a 200 response
with a parseable body, it sleeps exactly `2^0, 2^1, ..., 2^(N-1)` seconds
in that order, issues exactly `N + 1` HTTP GET requests, and returns the
parsed body of the final response. -/
theorem c1_backoff_timing (maxRetries N : Nat) (resp : Nat → Attempt α)
    (v : α) (hN : 0 < N) (hle : N ≤ maxRetries)
    (h429 : ∀ i, i < N → ∃ text parsed, resp i = .response 429 text parsed)
    (hok : ∃ text, resp N = .response 200 text (.ok v)) :
    makeRequest maxRetries resp = ⟨.ok v, N + 1, (List.range N).map (2 ^ ·)⟩ := by
  obtain ⟨text, hok⟩ := hok
  rw [makeRequest_eq_from,
    makeRequestFrom_skip maxRetries resp N 0
      (fun i _ hi => by
        obtain ⟨t, p, hp⟩ := h429 i (by omega)
        rw [hp]; simp [Retryable])
      (by omega)]
  rw [Nat.zero_add, makeRequestFrom_ok maxRetries resp N text v hle hok]
  simp [List.range_eq_range', Nat.add_comm]

theorem c1_backoff_timing_witness :
    makeRequest 3
      (fun i => if i < 2 then Attempt.response 429 "busy" (.error "no json")
        else Attempt.response 200 "{}" (.ok 42)) =
      ⟨.ok 42, 2 + 1, (List.range 2).map (2 ^ ·)⟩ :=
  c1_backoff_timing 3 2 _ 42 (by decide) (by decide)
    (fun i hi => ⟨"busy", .error "no json", by simp [hi]⟩)
    ⟨"{}", by simp⟩

/-- C2: for every configured `max_retries` value `R`, if every attempt
fails with a retryable condition (HTTP 429, any other non-200 status, a
timeout, or a transport-level request error), the client issues exactly
`R + 1` HTTP GET requests and then fails with the single error kind
(`BinanceAPIError`, the unique error channel of the model) carrying a
message that indicates exhaustion; the failure is never silently
swallowed (the outcome is always an error, never a success). -/
theorem c2_retry_exhaustion (R : Nat) (resp : Nat → Attempt α)
    (hfail : ∀ i, i ≤ R → Retryable (resp i)) :
    (makeRequest R resp).numRequests = R + 1 ∧
    ∃ m, (makeRequest R resp).outcome = .error m ∧ ExhaustionMsg m := by
  obtain ⟨m, hm, hex⟩ := makeRequestFrom_lastFail R resp (hfail R le_rfl)
  rw [makeRequest_eq_from,
    makeRequestFrom_skip R resp R 0
      (fun i _ hi => hfail i (by omega)) (by omega)]
  rw [Nat.zero_add, hm]
  exact ⟨by simp [Nat.add_comm], m, rfl, hex⟩

theorem c2_retry_exhaustion_witness :
    (makeRequest 3 (fun i => (Attempt.timeout : Attempt Nat))).numRequests =
      3 + 1 ∧
    ∃ m, (makeRequest 3 (fun i => (Attempt.timeout : Attempt Nat))).outcome =
      .error m ∧ ExhaustionMsg m :=
  c2_retry_exhaustion 3 _ (fun i _ => by simp [Retryable])

/-- C5: if an attempt of `_make_request` receives an HTTP 200 response
whose body fails to parse as JSON, the client raises the single error
kind immediately with a parse-error message: the total number of HTTP
requests is that attempt's index plus one (no further requests), and the
sleeps are exactly the backoffs of the earlier failed attempts (no
backoff sleep for the parse failure), regardless of how many retry
attempts remain. -/
theorem c5_parse_error_no_retry (maxRetries k : Nat)
    (resp : Nat → Attempt α) (t e : String) (hk : k ≤ maxRetries)
    (hprev : ∀ i, i < k → Retryable (resp i))
    (hbad : resp k = .response 200 t (.error e)) :
    makeRequest maxRetries resp =
      ⟨.error ("Invalid JSON response: " ++ e), k + 1,
        (List.range k).map (2 ^ ·)⟩ := by
  rw [makeRequest_eq_from,
    makeRequestFrom_skip maxRetries resp k 0
      (fun i _ hi => hprev i (by omega)) (by omega)]
  rw [Nat.zero_add, makeRequestFrom_parseError maxRetries resp k t e hk hbad]
  simp [List.range_eq_range', Nat.add_comm]

theorem c5_parse_error_no_retry_witness :
    makeRequest 3
      (fun i => if i = 0 then Attempt.response 503 "down" (.error "no json")
        else (Attempt.response 200 "<html>" (.error "Expecting value") :
          Attempt Nat)) =
      ⟨.error ("Invalid JSON response: " ++ "Expecting value"), 1 + 1,
        (List.range 1).map ((2 : Nat) ^ ·)⟩ :=
  c5_parse_error_no_retry 3 1 _ "<html>" "Expecting value" (by decide)
    (fun i hi => by
      have : i = 0 := by omega
      simp [this, Retryable])
    (by simp)

/-! ## The `cache_response` decorator -/

/-- A Python value as it appears in the arguments of the client's cached
methods (strings, ints, `None`). -/
inductive PyVal where
  | str (s : String)
  | int (n : Int)
  | none
deriving DecidableEq

/-- Model of Python `repr` (as used by `str` on tuples/lists) for the
argument values above.  Escaping of quote characters inside strings is
not modelled; the client's arguments (symbols, intervals, limits) never
contain quotes. -/
def pyRepr : PyVal → String
  | .str s => "'" ++ s ++ "'"
  | .int n => toString n
  | .none => "None"

/-- Model of Python `str(args)` on the positional-argument tuple:
`()` when empty, `(x,)` for a 1-tuple, `(x, y, ...)` otherwise. -/
def strTuple (args : List PyVal) : String :=
  match args with
  | [] => "()"
  | [a] => "(" ++ pyRepr a ++ ",)"
  | _ => "(" ++ String.intercalate ", " (args.map pyRepr) ++ ")"

/-- Model of Python `str` on one `(name, value)` item of `kwargs.items()`. -/
def strItem (kv : String × PyVal) : String :=
  "('" ++ kv.1 ++ "', " ++ pyRepr kv.2 ++ ")"

/-- Model of Python `str` on a list of `(name, value)` items. -/
def strItemList (l : List (String × PyVal)) : String :=
  "[" ++ String.intercalate ", " (l.map strItem) ++ "]"

/-- Insert one keyword item into a list sorted by name (helper for the
model of Python `sorted(kwargs.items())`). -/
def insertItem (p : String × PyVal) :
    List (String × PyVal) → List (String × PyVal)
  | [] => [p]
  | q :: rest => if p.1 ≤ q.1 then p :: q :: rest else q :: insertItem p rest

/-- Model of Python `sorted(kwargs.items())` (insertion sort by keyword
name; keyword names in a call are distinct, so tuple comparison never
reaches the values). -/
def sortItems : List (String × PyVal) → List (String × PyVal)
  | [] => []
  | p :: rest => insertItem p (sortItems rest)

/-- The cache key built by the `wrapper` inside `cache_response`:
`f"{func.__name__}:{str(args)}:{str(sorted(kwargs.items()))}"`. -/
def cacheKey (funcName : String) (args : List PyVal)
    (kwargs : List (String × PyVal)) : String :=
  funcName ++ ":" ++ strTuple args ++ ":" ++ strItemList (sortItems kwargs)

/-- The decorator's closure-captured `cache` dict: key to
(result, capture timestamp). -/
abbrev Cache (α : Type) := List (String × α × Nat)

/-- Python `cache_key in cache` / `cache[cache_key]` on the dict. -/
def cacheFind (key : String) : Cache α → Option (α × Nat)
  | [] => Option.none
  | (k, v, ts) :: rest => if key = k then some (v, ts) else cacheFind key rest

/-- The expired-entry sweep at the top of the wrapper: remove every entry
with `current_time - timestamp >= ttl_seconds`. -/
def purgeExpired (ttl now : Nat) (cache : Cache α) : Cache α :=
  cache.filter (fun e => !decide (ttl ≤ now - e.2.2))

/-- Observable outcome of one call through the caching wrapper:
the returned value, whether the wrapped function was actually executed
(a cache miss, hence an underlying request), and the cache afterwards. -/
structure CallResult (α : Type) where
  value : α
  executed : Bool
  cache : Cache α

/-- One call through the `wrapper` of `cache_response ttl`: sweep expired
entries, return the cached value on a hit, otherwise execute the wrapped
function and store its result with the current timestamp. -/
def wrapperCall (ttl : Nat) (key : String) (compute : Unit → α)
    (now : Nat) (cache : Cache α) : CallResult α :=
  let cache1 := purgeExpired ttl now cache
  match cacheFind key cache1 with
  | some (v, _) => ⟨v, false, cache1⟩
  | Option.none =>
    let result := compute ()
    ⟨result, true, (key, result, now) :: cache1⟩

/-- The TTLs configured on the three cached operations. -/
def exchangeInfoTTL : Nat := 3600

/-- TTL of `get_ticker_24hr`. -/
def ticker24hrTTL : Nat := 30

/-- TTL of `get_klines`. -/
def klinesTTL : Nat := 300

lemma cacheFind_mem (key : String) (c : Cache α) (v : α) (ts : Nat)
    (h : cacheFind key c = some (v, ts)) : (key, v, ts) ∈ c := by
  induction c with
  | nil => simp [cacheFind] at h
  | cons e rest ih =>
    obtain ⟨k, w, t⟩ := e
    by_cases hk : key = k
    · simp [cacheFind, hk] at h
      simp [hk, h.1, h.2]
    · simp [cacheFind, hk] at h
      exact List.mem_cons_of_mem _ (ih h)

lemma mem_purgeExpired (ttl now : Nat) (c : Cache α) (e : String × α × Nat)
    (h : e ∈ purgeExpired ttl now c) : e ∈ c ∧ now - e.2.2 < ttl := by
  unfold purgeExpired at h
  rw [List.mem_filter] at h
  refine ⟨h.1, ?_⟩
  have := h.2
  simp at this
  omega

/-- C3: with any configured TTL (in particular `3600`, `30` and `300` for
`get_exchange_info`, `get_ticker_24hr` and `get_klines`): a first call
executes the wrapped function; a second call with the identical key
strictly less than TTL seconds later does not execute it and returns the
cached value; a call made once at least TTL seconds have elapsed executes
it again; and no call ever returns from the cache an entry captured TTL
or more seconds earlier, since expired entries are purged before lookup
on every access. -/
theorem c3_cache_ttl (ttl : Nat) (key : String) (f g h q : Unit → α)
    (t1 t2 t3 : Nat) (c : Cache α) (now : Nat)
    (h12 : t1 ≤ t2) (hfresh : t2 - t1 < ttl) (hstale : ttl ≤ t3 - t1)
    (hhit : (wrapperCall ttl key q now c).executed = false) :
    (wrapperCall ttl key f t1 []).executed = true ∧
    (wrapperCall ttl key g t2
      (wrapperCall ttl key f t1 []).cache).executed = false ∧
    (wrapperCall ttl key g t2 (wrapperCall ttl key f t1 []).cache).value =
      (wrapperCall ttl key f t1 []).value ∧
    (wrapperCall ttl key h t3
      (wrapperCall ttl key f t1 []).cache).executed = true ∧
    ∃ ts, (key, (wrapperCall ttl key q now c).value, ts) ∈ c ∧
      now - ts < ttl := by
  refine ⟨rfl, ?_, ?_, ?_, ?_⟩
  · simp [wrapperCall, purgeExpired, cacheFind, Nat.not_le.mpr hfresh]
  · simp [wrapperCall, purgeExpired, cacheFind, Nat.not_le.mpr hfresh]
  · simp [wrapperCall, purgeExpired, cacheFind, hstale]
  · revert hhit
    unfold wrapperCall
    cases hfind : cacheFind key (purgeExpired ttl now c) with
    | none => intro hhit; simp [hfind] at hhit
    | some p =>
      obtain ⟨v, ts⟩ := p
      intro _
      have hmem := mem_purgeExpired ttl now c (key, v, ts)
        (cacheFind_mem key _ v ts hfind)
      exact ⟨ts, by simpa [hfind] using hmem.1, hmem.2⟩

theorem c3_cache_ttl_witness :
    (wrapperCall 30 "k" (fun _ => 7) 0 ([] : Cache Nat)).executed = true ∧
    (wrapperCall 30 "k" (fun _ => 8) 10
      (wrapperCall 30 "k" (fun _ => 7) 0 []).cache).executed = false ∧
    (wrapperCall 30 "k" (fun _ => 8) 10
      (wrapperCall 30 "k" (fun _ => 7) 0 []).cache).value =
      (wrapperCall 30 "k" (fun _ => 7) 0 []).value ∧
    (wrapperCall 30 "k" (fun _ => 8) 50
      (wrapperCall 30 "k" (fun _ => 7) 0 []).cache).executed = true ∧
    ∃ ts, ("k", (wrapperCall 30 "k" (fun _ => 9) 100
      [("k", 5, 95)]).value, ts) ∈ ([("k", 5, 95)] : Cache Nat) ∧
      100 - ts < 30 :=
  c3_cache_ttl 30 "k" (fun _ => 7) (fun _ => 8) (fun _ => 8) (fun _ => 9)
    0 10 50 [("k", 5, 95)] 100 (by decide) (by decide) (by decide) (by decide)

/-- C4 counterexample: calling `get_klines("BTCUSDT", "1h", 500)` with
the limit positional and then `get_klines("BTCUSDT", "1h", limit=500)`
with the identical value by keyword, one second apart (well within the
300 s TTL), executes the wrapped function a second time: the two calls do
NOT hit the same cache entry, because `str(args)` and
`str(sorted(kwargs.items()))` place the value in different key segments. -/
theorem c4_counterexample :
    (wrapperCall klinesTTL
      (cacheKey "get_klines" [.str "BTCUSDT", .str "1h"] [("limit", .int 500)])
      (fun _ => PyVal.int 2) 1
      (wrapperCall klinesTTL
        (cacheKey "get_klines" [.str "BTCUSDT", .str "1h", .int 500] [])
        (fun _ => PyVal.int 1) 0 []).cache).executed = true := by decide

/-- C4 (amended): the cache key is the function name plus the stringified
positional-argument tuple plus the stringified keyword items sorted by
name, so keyword-argument order does not affect key identity; two calls
whose argument sets yield different keys (in particular different
argument values at the client's call shapes, e.g. different symbols)
are cached independently — both execute the wrapped function and both
results are independently retrievable afterwards; but an argument
supplied positionally yields a different key than the same value
supplied by keyword, so such calls do not share an entry. -/
theorem c4_cache_key_independence (ttl : Nat) (name : String)
    (args1 args2 : List PyVal) (kw1 kw2 : List (String × PyVal))
    (p q : String × PyVal) (f1 f2 : Unit → PyVal) (t1 t2 : Nat)
    (hpq : p.1 ≠ q.1)
    (hne : cacheKey name args1 kw1 ≠ cacheKey name args2 kw2)
    (h12 : t1 ≤ t2) (hfresh : t2 - t1 < ttl) :
    cacheKey name args1 [p, q] = cacheKey name args1 [q, p] ∧
    cacheKey "get_klines" [.str "BTCUSDT", .str "1h", .int 500] [] ≠
      cacheKey "get_klines" [.str "ETHUSDT", .str "1h", .int 500] [] ∧
    (wrapperCall ttl (cacheKey name args1 kw1) f1 t1 []).executed = true ∧
    (wrapperCall ttl (cacheKey name args2 kw2) f2 t2
      (wrapperCall ttl (cacheKey name args1 kw1) f1 t1 []).cache).executed =
      true ∧
    cacheFind (cacheKey name args1 kw1)
      (wrapperCall ttl (cacheKey name args2 kw2) f2 t2
        (wrapperCall ttl (cacheKey name args1 kw1) f1 t1 []).cache).cache =
      some ((wrapperCall ttl (cacheKey name args1 kw1) f1 t1 []).value, t1) ∧
    cacheFind (cacheKey name args2 kw2)
      (wrapperCall ttl (cacheKey name args2 kw2) f2 t2
        (wrapperCall ttl (cacheKey name args1 kw1) f1 t1 []).cache).cache =
      some ((wrapperCall ttl (cacheKey name args2 kw2) f2 t2
        (wrapperCall ttl (cacheKey name args1 kw1) f1 t1 []).cache).value,
        t2) := by
  have hne21 : cacheKey name args2 kw2 ≠ cacheKey name args1 kw1 :=
    Ne.symm hne
  refine ⟨?_, by decide, rfl, ?_, ?_, ?_⟩
  · rcases le_or_lt p.1 q.1 with hle | hlt
    · have hnq : ¬ q.1 ≤ p.1 := fun h => hpq (le_antisymm hle h)
      simp [cacheKey, sortItems, insertItem, hle, hnq]
    · have hnp : ¬ p.1 ≤ q.1 := not_le.mpr hlt
      simp [cacheKey, sortItems, insertItem, hnp, le_of_lt hlt]
  · simp [wrapperCall, purgeExpired, cacheFind, Nat.not_le.mpr hfresh, hne21]
  · simp [wrapperCall, purgeExpired, cacheFind, Nat.not_le.mpr hfresh,
      hne21, hne]
  · simp [wrapperCall, purgeExpired, cacheFind, Nat.not_le.mpr hfresh, hne21]

theorem c4_cache_key_independence_witness :
    cacheKey "get_klines" [.str "BTCUSDT", .str "1h", .int 500]
      [("interval", .str "X"), ("limit", .str "Y")] =
      cacheKey "get_klines" [.str "BTCUSDT", .str "1h", .int 500]
        [("limit", .str "Y"), ("interval", .str "X")] ∧
    cacheKey "get_klines" [.str "BTCUSDT", .str "1h", .int 500] [] ≠
      cacheKey "get_klines" [.str "ETHUSDT", .str "1h", .int 500] [] ∧
    (wrapperCall 300
      (cacheKey "get_klines" [.str "BTCUSDT", .str "1h", .int 500] [])
      (fun _ => PyVal.int 1) 0 []).executed = true ∧
    (wrapperCall 300
      (cacheKey "get_klines" [.str "ETHUSDT", .str "1h", .int 500] [])
      (fun _ => PyVal.int 2) 1
      (wrapperCall 300
        (cacheKey "get_klines" [.str "BTCUSDT", .str "1h", .int 500] [])
        (fun _ => PyVal.int 1) 0 []).cache).executed = true ∧
    cacheFind (cacheKey "get_klines" [.str "BTCUSDT", .str "1h", .int 500] [])
      (wrapperCall 300
        (cacheKey "get_klines" [.str "ETHUSDT", .str "1h", .int 500] [])
        (fun _ => PyVal.int 2) 1
        (wrapperCall 300
          (cacheKey "get_klines" [.str "BTCUSDT", .str "1h", .int 500] [])
          (fun _ => PyVal.int 1) 0 []).cache).cache =
      some ((wrapperCall 300
        (cacheKey "get_klines" [.str "BTCUSDT", .str "1h", .int 500] [])
        (fun _ => PyVal.int 1) 0 []).value, 0) ∧
    cacheFind (cacheKey "get_klines" [.str "ETHUSDT", .str "1h", .int 500] [])
      (wrapperCall 300
        (cacheKey "get_klines" [.str "ETHUSDT", .str "1h", .int 500] [])
        (fun _ => PyVal.int 2) 1
        (wrapperCall 300
          (cacheKey "get_klines" [.str "BTCUSDT", .str "1h", .int 500] [])
          (fun _ => PyVal.int 1) 0 []).cache).cache =
      some ((wrapperCall 300
        (cacheKey "get_klines" [.str "ETHUSDT", .str "1h", .int 500] [])
        (fun _ => PyVal.int 2) 1
        (wrapperCall 300
          (cacheKey "get_klines" [.str "BTCUSDT", .str "1h", .int 500] [])
          (fun _ => PyVal.int 1) 0 []).cache).value, 1) :=
  c4_cache_key_independence 300 "get_klines"
    [.str "BTCUSDT", .str "1h", .int 500]
    [.str "ETHUSDT", .str "1h", .int 500] [] []
    ("interval", .str "X") ("limit", .str "Y")
    (fun _ => PyVal.int 1) (fun _ => PyVal.int 2) 0 1
    (by decide) (by decide) (by decide) (by decide)

/-! ## Public endpoint wrappers -/

/-- Association lookup modelling access to a Python dict built by the
client (`params['symbol']`, `prices[symbol]`, `key in dict`). -/
def dictFind (key : String) : List (String × β) → Option β
  | [] => Option.none
  | (k, v) :: rest => if key = k then some v else dictFind key rest

/-- Model of Python `str.upper`: per-character ASCII case mapping
(the client's symbols are ASCII; Unicode special casing is out of
scope). -/
def pyUpper (s : String) : String := String.mk (s.data.map Char.toUpper)

/-- The `params` dict built by `BinanceClient.get_klines`:
`{'symbol': symbol.upper(), 'interval': interval, 'limit': min(limit, 1000)}`. -/
def get_klines_params (symbol interval : String) (limit : Int) :
    List (String × PyVal) :=
  [("symbol", .str (pyUpper symbol)), ("interval", .str interval),
   ("limit", .int (min limit 1000))]

/-- The `params` dict built by `BinanceClient.get_ticker_24hr`: starts
empty, and `if symbol: params['symbol'] = symbol.upper()` — under Python
truthiness both `None` and the empty string skip the assignment. -/
def get_ticker_24hr_params : Option String → List (String × PyVal)
  | Option.none => []
  | some s => if s.isEmpty then [] else [("symbol", .str (pyUpper s))]

/-- C8: for every call to `get_klines`, the outgoing `limit` parameter is
`min(requested, 1000)`; in particular any requested limit above 1000 is
silently clamped to exactly 1000. -/
theorem c8_limit_clamped (symbol interval : String) (limit : Int)
    (h : 1000 < limit) :
    dictFind "limit" (get_klines_params symbol interval limit) =
      some (.int (min limit 1000)) ∧
    dictFind "limit" (get_klines_params symbol interval limit) =
      some (.int 1000) := by
  constructor
  · simp [get_klines_params, dictFind]
  · simp [get_klines_params, dictFind, min_eq_right (le_of_lt h)]

theorem c8_limit_clamped_witness :
    dictFind "limit" (get_klines_params "BTCUSDT" "1h" 5000) =
      some (.int (min 5000 1000)) ∧
    dictFind "limit" (get_klines_params "BTCUSDT" "1h" 5000) =
      some (.int 1000) :=
  c8_limit_clamped "BTCUSDT" "1h" 5000 (by decide)

/-- C9 counterexample: passing the empty string (not omitting the
argument) to `get_ticker_24hr` sends no `symbol` parameter at all, rather
than the uppercased form of the argument: `if symbol:` treats the empty
string like `None`. -/
theorem c9_counterexample :
    dictFind "symbol" (get_ticker_24hr_params (some "")) ≠
      some (.str (pyUpper "")) := by decide

/-- C9 (amended): every nonempty symbol passed to `get_ticker_24hr`, and
every symbol passed to `get_klines`, is sent uppercased (so "btcusdt"
yields the parameter "BTCUSDT"); an omitted — or empty — symbol on
`get_ticker_24hr` sends no `symbol` parameter. -/
theorem c9_symbol_uppercased (s sym2 interval : String) (limit : Int)
    (hs : s.isEmpty = false) :
    dictFind "symbol" (get_ticker_24hr_params (some s)) =
      some (.str (pyUpper s)) ∧
    dictFind "symbol" (get_ticker_24hr_params Option.none) = Option.none ∧
    dictFind "symbol" (get_ticker_24hr_params (some "")) = Option.none ∧
    dictFind "symbol" (get_ticker_24hr_params (some "btcusdt")) =
      some (.str "BTCUSDT") ∧
    dictFind "symbol" (get_klines_params sym2 interval limit) =
      some (.str (pyUpper sym2)) := by
  refine ⟨?_, by decide, by decide, by decide, ?_⟩
  · simp [get_ticker_24hr_params, hs, dictFind]
  · simp [get_klines_params, dictFind]

theorem c9_symbol_uppercased_witness :
    dictFind "symbol" (get_ticker_24hr_params (some "ethusdt")) =
      some (.str (pyUpper "ethusdt")) ∧
    dictFind "symbol" (get_ticker_24hr_params Option.none) = Option.none ∧
    dictFind "symbol" (get_ticker_24hr_params (some "")) = Option.none ∧
    dictFind "symbol" (get_ticker_24hr_params (some "btcusdt")) =
      some (.str "BTCUSDT") ∧
    dictFind "symbol" (get_klines_params "solusdt" "1d" 200) =
      some (.str (pyUpper "solusdt")) :=
  c9_symbol_uppercased "ethusdt" "solusdt" "1d" 200 (by decide)

/-! ## Portfolio processing (`src/data/processor.py`) -/

/-- One element of the `holdings` list passed to
`calculate_portfolio_value`: a dict read via `holding.get('symbol', '')`
and `holding.get('quantity', 0)`, so either key may be absent.  Numeric
values are modelled as rationals. -/
structure HoldingInput where
  symbol : Option String
  quantity : Option ℚ
deriving DecidableEq

/-- The `PortfolioHolding` dataclass of `processor.py`. -/
structure PortfolioHolding where
  symbol : String
  quantity : ℚ
  current_value : ℚ
  percentage : ℚ
deriving DecidableEq

/-- The uppercased symbol a holding is processed under:
`holding.get('symbol', '').upper()`. -/
def holdingSymbol (h : HoldingInput) : String :=
  pyUpper (h.symbol.getD "")

/-- The first pass of `calculate_portfolio_value`: walk the holdings in
order accumulating `total_value`, the priced `portfolio_holdings`
(percentage still 0), and `missing_symbols`. -/
def firstPass (prices : List (String × ℚ)) :
    List HoldingInput → ℚ × List PortfolioHolding × List String
  | [] => (0, [], [])
  | h :: rest =>
    let r := firstPass prices rest
    let quantity := h.quantity.getD 0
    match dictFind (holdingSymbol h) prices with
    | some price =>
      (quantity * price + r.1,
       ⟨holdingSymbol h, quantity, quantity * price, 0⟩ :: r.2.1, r.2.2)
    | Option.none => (r.1, r.2.1, holdingSymbol h :: r.2.2)

/-- The function `calculate_portfolio_value` of `processor.py`: empty holdings short
circuit, the first pass above, then the second pass that sets each
percentage to `current_value / total_value * 100` when
`total_value > 0`. -/
def calculate_portfolio_value (holdings : List HoldingInput)
    (prices : List (String × ℚ)) : ℚ × List PortfolioHolding × List String :=
  match holdings with
  | [] => (0, [], [])
  | _ :: _ =>
    let r := firstPass prices holdings
    (r.1,
     if 0 < r.1 then
       r.2.1.map (fun h => { h with percentage := h.current_value / r.1 * 100 })
     else r.2.1,
     r.2.2)

lemma firstPass_cons_some (prices : List (String × ℚ)) (g : HoldingInput)
    (rest : List HoldingInput) (price : ℚ)
    (h : dictFind (holdingSymbol g) prices = some price) :
    firstPass prices (g :: rest) =
      (g.quantity.getD 0 * price + (firstPass prices rest).1,
       ⟨holdingSymbol g, g.quantity.getD 0, g.quantity.getD 0 * price, 0⟩ ::
         (firstPass prices rest).2.1,
       (firstPass prices rest).2.2) := by
  simp [firstPass, h]

lemma firstPass_cons_none (prices : List (String × ℚ)) (g : HoldingInput)
    (rest : List HoldingInput)
    (h : dictFind (holdingSymbol g) prices = Option.none) :
    firstPass prices (g :: rest) =
      ((firstPass prices rest).1, (firstPass prices rest).2.1,
       holdingSymbol g :: (firstPass prices rest).2.2) := by
  simp [firstPass, h]

lemma firstPass_missing_mem (prices : List (String × ℚ))
    (holdings : List HoldingInput) (h : HoldingInput)
    (hmem : h ∈ holdings)
    (hmiss : dictFind (holdingSymbol h) prices = Option.none) :
    holdingSymbol h ∈ (firstPass prices holdings).2.2 := by
  induction holdings with
  | nil => simp at hmem
  | cons g rest ih =>
    rcases List.mem_cons.mp hmem with heq | htail
    · subst heq
      simp [firstPass, hmiss]
    · unfold firstPass
      cases hg : dictFind (holdingSymbol g) prices with
      | some price => simpa [hg] using ih htail
      | none => simp [hg, ih htail]

lemma firstPass_portfolio_priced (prices : List (String × ℚ))
    (holdings : List HoldingInput) (p : PortfolioHolding)
    (hp : p ∈ (firstPass prices holdings).2.1) :
    ∃ price, dictFind p.symbol prices = some price := by
  induction holdings with
  | nil => simp [firstPass] at hp
  | cons g rest ih =>
    unfold firstPass at hp
    cases hg : dictFind (holdingSymbol g) prices with
    | some price =>
      rw [hg] at hp
      rcases List.mem_cons.mp hp with heq | htail
      · subst heq; exact ⟨price, hg⟩
      · exact ih htail
    | none =>
      rw [hg] at hp
      exact ih hp

lemma firstPass_total_filter (prices : List (String × ℚ))
    (holdings : List HoldingInput) (s : String)
    (hmiss : dictFind s prices = Option.none) :
    (firstPass prices (holdings.filter (fun g => holdingSymbol g ≠ s))).1 =
      (firstPass prices holdings).1 ∧
    (firstPass prices (holdings.filter (fun g => holdingSymbol g ≠ s))).2.1 =
      (firstPass prices holdings).2.1 := by
  induction holdings with
  | nil => exact ⟨rfl, rfl⟩
  | cons g rest ih =>
    rw [List.filter_cons]
    by_cases hg : holdingSymbol g = s
    · have hnone : dictFind (holdingSymbol g) prices = Option.none := by
        rw [hg]; exact hmiss
      rw [if_neg (by simp [hg]), firstPass_cons_none prices g rest hnone]
      exact ih
    · rw [if_pos (by simp [hg])]
      cases hfind : dictFind (holdingSymbol g) prices with
      | some price =>
        rw [firstPass_cons_some prices g _ price hfind,
          firstPass_cons_some prices g rest price hfind]
        simp only [ne_eq, decide_not] at ih
        simp [ih.1, ih.2]
      | none =>
        rw [firstPass_cons_none prices g _ hfind,
          firstPass_cons_none prices g rest hfind]
        exact ih

/-- C6: a holding whose uppercased symbol has no entry in the price
mapping appears in the returned missing-symbols list, appears under no
returned portfolio holding, and contributes nothing to the returned
total value: the total (and the priced-holdings list) is unchanged when
all holdings with that symbol are removed from the input. -/
theorem c6_missing_symbol (holdings : List HoldingInput)
    (prices : List (String × ℚ)) (h : HoldingInput)
    (hmem : h ∈ holdings)
    (hmiss : dictFind (holdingSymbol h) prices = Option.none) :
    holdingSymbol h ∈ (calculate_portfolio_value holdings prices).2.2 ∧
    (∀ p ∈ (calculate_portfolio_value holdings prices).2.1,
      p.symbol ≠ holdingSymbol h) ∧
    (calculate_portfolio_value holdings prices).1 =
      (firstPass prices
        (holdings.filter (fun g => holdingSymbol g ≠ holdingSymbol h))).1 := by
  obtain ⟨g, rest, rfl⟩ : ∃ g rest, holdings = g :: rest := by
    cases holdings with
    | nil => simp at hmem
    | cons g rest => exact ⟨g, rest, rfl⟩
  have hmissing := firstPass_missing_mem prices (g :: rest) h hmem hmiss
  have hfilter := firstPass_total_filter prices (g :: rest)
    (holdingSymbol h) hmiss
  refine ⟨hmissing, ?_, hfilter.1.symm⟩
  intro p hp
  have hp' : ∃ p0 ∈ (firstPass prices (g :: rest)).2.1,
      p.symbol = p0.symbol := by
    unfold calculate_portfolio_value at hp
    by_cases hpos : 0 < (firstPass prices (g :: rest)).1
    · simp only [hpos, if_true] at hp
      obtain ⟨p0, hp0, rfl⟩ := List.mem_map.mp hp
      exact ⟨p0, hp0, rfl⟩
    · simp only [hpos, if_false] at hp
      exact ⟨p, hp, rfl⟩
  obtain ⟨p0, hp0, hsym⟩ := hp'
  obtain ⟨price, hprice⟩ := firstPass_portfolio_priced prices _ p0 hp0
  intro hcontra
  rw [hsym] at hcontra
  rw [hcontra, hmiss] at hprice
  exact Option.noConfusion hprice

theorem c6_missing_symbol_witness :
    holdingSymbol ⟨some "xyz", some 2⟩ ∈
      (calculate_portfolio_value
        [⟨some "btc", some 1⟩, ⟨some "xyz", some 2⟩]
        [("BTC", 45000)]).2.2 ∧
    (∀ p ∈ (calculate_portfolio_value
        [⟨some "btc", some 1⟩, ⟨some "xyz", some 2⟩]
        [("BTC", 45000)]).2.1,
      p.symbol ≠ holdingSymbol ⟨some "xyz", some 2⟩) ∧
    (calculate_portfolio_value
      [⟨some "btc", some 1⟩, ⟨some "xyz", some 2⟩] [("BTC", 45000)]).1 =
      (firstPass [("BTC", 45000)]
        ([⟨some "btc", some 1⟩, ⟨some "xyz", some 2⟩].filter
          (fun g => holdingSymbol g ≠ holdingSymbol ⟨some "xyz", some 2⟩))).1 :=
  c6_missing_symbol [⟨some "btc", some 1⟩, ⟨some "xyz", some 2⟩]
    [("BTC", 45000)] ⟨some "xyz", some 2⟩
    (List.mem_cons_of_mem _ (List.mem_cons_self _ _)) (by decide)

lemma firstPass_total_eq_sum (prices : List (String × ℚ))
    (holdings : List HoldingInput) :
    (firstPass prices holdings).1 =
      ((firstPass prices holdings).2.1.map PortfolioHolding.current_value).sum := by
  induction holdings with
  | nil => simp [firstPass]
  | cons g rest ih =>
    cases hfind : dictFind (holdingSymbol g) prices with
    | some price =>
      rw [firstPass_cons_some prices g rest price hfind]
      simp [ih]
    | none =>
      rw [firstPass_cons_none prices g rest hfind]
      exact ih

lemma sum_map_div_mul (l : List PortfolioHolding) (tv : ℚ) :
    (l.map (fun h => h.current_value / tv * 100)).sum =
      (l.map PortfolioHolding.current_value).sum / tv * 100 := by
  induction l with
  | nil => simp
  | cons p rest ih => simp [ih, add_div, add_mul]

/-- C7: whenever the returned total value is strictly positive, the
percentages of the returned holdings sum to exactly 100 (in the rational
model; a fortiori within floating-point tolerance), and each returned
holding's percentage equals its current value divided by the total
value, times 100. -/
theorem c7_percentage_sum (holdings : List HoldingInput)
    (prices : List (String × ℚ))
    (hpos : 0 < (calculate_portfolio_value holdings prices).1) :
    ((calculate_portfolio_value holdings prices).2.1.map
      PortfolioHolding.percentage).sum = 100 ∧
    ∀ p ∈ (calculate_portfolio_value holdings prices).2.1,
      p.percentage =
        p.current_value / (calculate_portfolio_value holdings prices).1 * 100 := by
  cases holdings with
  | nil => simp [calculate_portfolio_value] at hpos
  | cons g rest =>
    have hcalc : calculate_portfolio_value (g :: rest) prices =
        ((firstPass prices (g :: rest)).1,
         if 0 < (firstPass prices (g :: rest)).1 then
           (firstPass prices (g :: rest)).2.1.map
             (fun h => { h with percentage :=
               h.current_value / (firstPass prices (g :: rest)).1 * 100 })
         else (firstPass prices (g :: rest)).2.1,
         (firstPass prices (g :: rest)).2.2) := rfl
    rw [hcalc] at hpos ⊢
    simp only at hpos
    rw [if_pos hpos]
    constructor
    · simp only [List.map_map]
      have hcomp : (PortfolioHolding.percentage ∘
          fun h => { h with percentage :=
            h.current_value / (firstPass prices (g :: rest)).1 * 100 }) =
          fun h : PortfolioHolding =>
            h.current_value / (firstPass prices (g :: rest)).1 * 100 := rfl
      rw [hcomp, sum_map_div_mul, ← firstPass_total_eq_sum,
        div_self (ne_of_gt hpos), one_mul]
    · intro p hp
      obtain ⟨p0, _, rfl⟩ := List.mem_map.mp hp
      rfl

theorem c7_percentage_sum_witness :
    ((calculate_portfolio_value
      [⟨some "BTC", some 1⟩, ⟨some "ETH", some 10⟩, ⟨some "ADA", some 1000⟩]
      [("BTC", 45000), ("ETH", 3000), ("ADA", 1)]).2.1.map
        PortfolioHolding.percentage).sum = 100 ∧
    ∀ p ∈ (calculate_portfolio_value
      [⟨some "BTC", some 1⟩, ⟨some "ETH", some 10⟩, ⟨some "ADA", some 1000⟩]
      [("BTC", 45000), ("ETH", 3000), ("ADA", 1)]).2.1,
      p.percentage = p.current_value /
        (calculate_portfolio_value
          [⟨some "BTC", some 1⟩, ⟨some "ETH", some 10⟩, ⟨some "ADA", some 1000⟩]
          [("BTC", 45000), ("ETH", 3000), ("ADA", 1)]).1 * 100 :=
  c7_percentage_sum
    [⟨some "BTC", some 1⟩, ⟨some "ETH", some 10⟩, ⟨some "ADA", some 1000⟩]
    [("BTC", 45000), ("ETH", 3000), ("ADA", 1)]
    (by
      have h1 : holdingSymbol ⟨some "BTC", some 1⟩ = "BTC" := rfl
      have h2 : holdingSymbol ⟨some "ETH", some 10⟩ = "ETH" := rfl
      have h3 : holdingSymbol ⟨some "ADA", some 1000⟩ = "ADA" := rfl
      simp +decide [calculate_portfolio_value, firstPass, h1, h2, h3, dictFind]
      norm_num)

/-- The concrete end-to-end portfolio example of the spec: total value
76000, and the three percentages in exact rationals. -/
theorem c7_spec_example :
    (calculate_portfolio_value
      [⟨some "BTC", some 1⟩, ⟨some "ETH", some 10⟩, ⟨some "ADA", some 1000⟩]
      [("BTC", 45000), ("ETH", 3000), ("ADA", 1)]).1 = 76000 ∧
    (calculate_portfolio_value
      [⟨some "BTC", some 1⟩, ⟨some "ETH", some 10⟩, ⟨some "ADA", some 1000⟩]
      [("BTC", 45000), ("ETH", 3000), ("ADA", 1)]).2.1.map
        PortfolioHolding.percentage =
      [4500000 / 76000, 3000000 / 76000, 100000 / 76000] := by
  have h1 : holdingSymbol ⟨some "BTC", some 1⟩ = "BTC" := rfl
  have h2 : holdingSymbol ⟨some "ETH", some 10⟩ = "ETH" := rfl
  have h3 : holdingSymbol ⟨some "ADA", some 1000⟩ = "ADA" := rfl
  simp +decide [calculate_portfolio_value, firstPass, h1, h2, h3, dictFind]
  norm_num

/-! ## `validate_portfolio_input` -/

/-- A Python float value: finite (the exact rational value; binary
rounding of decimal literals is not modelled), the infinities, or NaN. -/
inductive PyFloat where
  | finite (q : ℚ)
  | inf
  | negInf
  | nan
deriving DecidableEq

/-- IEEE-754 `<` as Python exposes it on floats: every comparison
involving NaN is false. -/
def PyFloat.lt : PyFloat → PyFloat → Bool
  | .nan, _ => false
  | _, .nan => false
  | .finite a, .finite b => decide (a < b)
  | .finite _, .inf => true
  | .finite _, .negInf => false
  | .inf, _ => false
  | .negInf, .negInf => false
  | .negInf, _ => true

/-- IEEE-754 `<=` on Python floats: false whenever NaN is involved. -/
def PyFloat.le : PyFloat → PyFloat → Bool
  | .nan, _ => false
  | _, .nan => false
  | .finite a, .finite b => decide (a ≤ b)
  | .finite _, .inf => true
  | .finite _, .negInf => false
  | .inf, .inf => true
  | .inf, _ => false
  | .negInf, _ => true

/-- Python `>` on floats. -/
def PyFloat.gt (a b : PyFloat) : Bool := PyFloat.lt b a

/-- Model of Python `str.lower` (ASCII case mapping). -/
def pyLower (s : String) : String := String.mk (s.data.map Char.toLower)

/-- Model of Python `str.strip`: drop leading and trailing whitespace. -/
def pyStrip (s : String) : String :=
  String.mk
    (((s.data.dropWhile (·.isWhitespace)).reverse.dropWhile
      (·.isWhitespace)).reverse)

/-- Split a character list at every occurrence of `c`. -/
def splitOnChar (c : Char) : List Char → List (List Char)
  | [] => [[]]
  | x :: xs =>
    match splitOnChar c xs with
    | [] => [[]]
    | h :: t => if x = c then [] :: h :: t else (x :: h) :: t

/-- Numeric value of a digit string. -/
def digitsToNat (l : List Char) : ℕ :=
  l.foldl (fun a c => a * 10 + (c.toNat - 48)) 0

/-- All characters are ASCII digits. -/
def allDigits (l : List Char) : Bool := l.all (·.isDigit)

/-- Parse the mantissa of a float literal: digits with an optional
decimal point, at least one digit overall. -/
def parseMantissa (l : List Char) : Option ℚ :=
  match splitOnChar '.' l with
  | [i] =>
    if !i.isEmpty && allDigits i then some (digitsToNat i) else Option.none
  | [i, f] =>
    if (!i.isEmpty || !f.isEmpty) && allDigits i && allDigits f then
      some ((digitsToNat i : ℚ) + (digitsToNat f : ℚ) / 10 ^ f.length)
    else Option.none
  | _ => Option.none

/-- Parse the exponent part of a float literal: optional sign, then at
least one digit. -/
def parseExp (l : List Char) : Option Int :=
  match l with
  | '+' :: r =>
    if !r.isEmpty && allDigits r then some (digitsToNat r) else Option.none
  | '-' :: r =>
    if !r.isEmpty && allDigits r then some (-(digitsToNat r : Int))
    else Option.none
  | r =>
    if !r.isEmpty && allDigits r then some (digitsToNat r) else Option.none

/-- Model of the Python builtin `float(str)` on already-stripped input
(case-insensitive `inf`/`infinity`/`nan`, optional sign, decimal digits
with optional fraction and exponent; `None` models the `ValueError`).
The value returned for a finite literal is its exact rational value;
digit-group underscores and rounding to binary double precision are not
modelled. -/
def pyFloatLit (s : String) : Option PyFloat :=
  match (pyLower s).data with
  | '+' :: rest => pyFloatLitUnsigned 1 rest
  | '-' :: rest => pyFloatLitUnsigned (-1) rest
  | rest => pyFloatLitUnsigned 1 rest
where
  /-- The body after the sign has been consumed; `sign` is `1` or `-1`. -/
  pyFloatLitUnsigned (sign : ℚ) (rest : List Char) : Option PyFloat :=
    if rest = "inf".data ∨ rest = "infinity".data then
      some (if sign = 1 then .inf else .negInf)
    else if rest = "nan".data then some .nan
    else
      match splitOnChar 'e' rest with
      | [mant] => (parseMantissa mant).map (fun q => .finite (sign * q))
      | [mant, ex] =>
        match parseMantissa mant, parseExp ex with
        | some q, some n => some (.finite (sign * q * (10 : ℚ) ^ n))
        | _, _ => Option.none
      | _ => Option.none

/-- Whether `re.match` with pattern `^[A-Z]{2,10}$` succeeds: 2 to 10 characters, all
uppercase ASCII letters. -/
def matchesSymbolPattern (s : String) : Bool :=
  decide (2 ≤ s.length) && decide (s.length ≤ 10) &&
    s.data.all (fun c => decide ('A' ≤ c) && decide (c ≤ 'Z'))

/-- The function `validate_portfolio_input` of `processor.py`: returns
`(is_valid, error_message, parsed_quantity)`.  The `isinstance` checks
drop out of the typed model; `if not symbol` / `if not quantity` are the
empty-string tests. -/
def validate_portfolio_input (symbol quantity : String) :
    Bool × String × Option PyFloat :=
  if symbol.isEmpty then (false, "Symbol is required", Option.none)
  else if !matchesSymbolPattern (pyUpper (pyStrip symbol)) then
    (false, "Symbol must be 2-10 letters only", Option.none)
  else if quantity.isEmpty then (false, "Quantity is required", Option.none)
  else
    match pyFloatLit (pyStrip quantity) with
    | Option.none => (false, "Quantity must be a valid number", Option.none)
    | some f =>
      if PyFloat.le f (.finite 0) then
        (false, "Quantity must be positive", Option.none)
      else if PyFloat.gt f (.finite (10 ^ 12)) then
        (false, "Quantity is too large", Option.none)
      else (true, "", some f)

/-- C10 counterexample: `validate_portfolio_input("BTC", "nan")` returns
valid (`float("nan")` parses, and both `nan <= 0` and `nan > 1e12` are
false), yet the parsed value NaN does not satisfy `0 < q`, so validity
is not equivalent to `0 < q ≤ 10^12` on the parsed quantity. -/
theorem c10_counterexample :
    (validate_portfolio_input "BTC" "nan").1 = true ∧
    (validate_portfolio_input "BTC" "nan").2.2 = some PyFloat.nan ∧
    PyFloat.lt (.finite 0) PyFloat.nan = false := by decide

/-- C10 (amended): the result is valid iff the stripped, uppercased
symbol matches `^[A-Z]{2,10}$` and the stripped quantity parses as a
float `q` with `q <= 0` false and `q > 10^12` false under Python float
comparison semantics (so NaN is accepted); exactly when valid the error
message is empty and the parsed quantity is returned, and exactly when
invalid the error message is non-empty and the parsed quantity is
`None`. -/
theorem c10_validate_iff (symbol quantity : String) :
    ((validate_portfolio_input symbol quantity).1 = true ↔
      (matchesSymbolPattern (pyUpper (pyStrip symbol)) = true ∧
       ∃ f, pyFloatLit (pyStrip quantity) = some f ∧
         PyFloat.le f (.finite 0) = false ∧
         PyFloat.gt f (.finite (10 ^ 12)) = false)) ∧
    ((validate_portfolio_input symbol quantity).1 = true →
      (validate_portfolio_input symbol quantity).2.1 = "" ∧
      (validate_portfolio_input symbol quantity).2.2 =
        pyFloatLit (pyStrip quantity)) ∧
    ((validate_portfolio_input symbol quantity).1 = false →
      (validate_portfolio_input symbol quantity).2.1 ≠ "" ∧
      (validate_portfolio_input symbol quantity).2.2 = Option.none) := by
  by_cases hs : symbol.isEmpty
  · have hsym : symbol = "" := (String.isEmpty_iff symbol).mp hs
    subst hsym
    have hv : validate_portfolio_input "" quantity =
        (false, "Symbol is required", Option.none) := rfl
    have hmf : matchesSymbolPattern (pyUpper (pyStrip "")) = false := by decide
    rw [hv]
    refine ⟨by simp [hmf], fun h => absurd h (by decide),
      fun _ => ⟨by decide, rfl⟩⟩
  · by_cases hm : matchesSymbolPattern (pyUpper (pyStrip symbol))
    · by_cases hq : quantity.isEmpty
      · have hqty : quantity = "" := (String.isEmpty_iff quantity).mp hq
        subst hqty
        have hv : validate_portfolio_input symbol "" =
            (false, "Quantity is required", Option.none) := by
          simp +decide [validate_portfolio_input, hs, hm]
        have hnone : pyFloatLit (pyStrip "") = Option.none := by decide
        rw [hv]
        refine ⟨by simp [hnone], fun h => absurd h (by decide),
          fun _ => ⟨by decide, rfl⟩⟩
      · cases hf : pyFloatLit (pyStrip quantity) with
        | none => simp [validate_portfolio_input, hs, hm, hq, hf]
        | some f =>
          by_cases hle : PyFloat.le f (.finite 0)
          · simp [validate_portfolio_input, hs, hm, hq, hf, hle]
          · by_cases hgt : PyFloat.gt f (.finite (10 ^ 12))
            · simp [validate_portfolio_input, hs, hm, hq, hf, hle, hgt]
            · simp [validate_portfolio_input, hs, hm, hq, hf, hle, hgt]
    · simp [validate_portfolio_input, hs, hm]

theorem c10_validate_iff_witness :
    ((validate_portfolio_input "BTC" "1.5").1 = true ↔
      (matchesSymbolPattern (pyUpper (pyStrip "BTC")) = true ∧
       ∃ f, pyFloatLit (pyStrip "1.5") = some f ∧
         PyFloat.le f (.finite 0) = false ∧
         PyFloat.gt f (.finite (10 ^ 12)) = false)) ∧
    ((validate_portfolio_input "BTC" "1.5").1 = true →
      (validate_portfolio_input "BTC" "1.5").2.1 = "" ∧
      (validate_portfolio_input "BTC" "1.5").2.2 =
        pyFloatLit (pyStrip "1.5")) ∧
    ((validate_portfolio_input "BTC" "1.5").1 = false →
      (validate_portfolio_input "BTC" "1.5").2.1 ≠ "" ∧
      (validate_portfolio_input "BTC" "1.5").2.2 = Option.none) :=
  c10_validate_iff "BTC" "1.5"

end CryptoDash
